import Mathlib

/-!
Verification of the archive-resolution engine of obsidian-link-archiver
(src/main.ts), shallowly embedded in Lean 4.

Conventions of the embedding:
- JavaScript strings are Lean Strings; s.includes(t) is modelled by
  jsIncludes (substring occurrence), s.toLowerCase() by jsToLower.
- JS Maps are association lists in insertion order; Map.set on an existing
  key updates the value in place, otherwise appends at the end, exactly as
  JS Maps behave; Map.delete removes the entry.
- Times are integers (milliseconds); Date.now() is threaded explicitly as a
  parameter, and awaiting a sleep of d ms advances the current time by d.
- Fallible host operations (new URL, Date parsing) are modelled as Option
  valued parsers; the host Date parser is modelled on ISO calendar dates
  (the only parseable shape relevant here), all other strings giving an
  Invalid Date, i.e. none.
- The provider's network responses are oracle parameters (a function from
  the retry counter to the response observed on that attempt).
-/

namespace LinkArchiver

/-- One character list is a prefix of another. -/
def listIsPre : List Char → List Char → Bool
  | [], _ => true
  | _ :: _, [] => false
  | a :: as, b :: bs => a = b && listIsPre as bs

/-- JS s.includes(sub): sub occurs as a contiguous substring of s. -/
def jsIncludes (s sub : String) : Bool :=
  s.data.tails.any (listIsPre sub.data)

/-- JS s.toLowerCase() (ASCII case mapping). -/
def jsToLower (s : String) : String :=
  String.mk (s.data.map Char.toLower)

/-- JS truthiness of an optional string field: absent and the empty string
are falsy. -/
def truthy : Option String → Bool
  | none => false
  | some s => !s.data.isEmpty

/-- Remove the first occurrence of pat (a plain string pattern in JS
s.replace(pat, "") replaces only the first occurrence). -/
def replaceFirstAux (pat : List Char) : List Char → List Char
  | [] => []
  | c :: rest =>
    if listIsPre pat (c :: rest) then (c :: rest).drop pat.length
    else c :: replaceFirstAux pat rest

/-- JS s.replace(pat, "") with a plain-string pattern. -/
def jsReplaceFirst (s pat : String) : String :=
  String.mk (replaceFirstAux pat.data s.data)

/-! ## Error classification (src/main.ts, classifyArchiveError) -/

/-- The raw error object reaching classifyArchiveError: an optional numeric
HTTP status, an optional message and an optional response body text. -/
structure ErrObj where
  status : Option Int
  message : Option String
  text : Option String
deriving DecidableEq, Repr

/-- enum ArchiveErrorType of src/main.ts. -/
inductive ArchiveErrorType where
  | RATE_LIMITED
  | CAPTCHA_REQUIRED
  | IP_BLOCKED
  | SERVICE_UNAVAILABLE
  | NETWORK_ERROR
  | UNKNOWN
deriving DecidableEq, Repr

export ArchiveErrorType (RATE_LIMITED CAPTCHA_REQUIRED IP_BLOCKED
  SERVICE_UNAVAILABLE NETWORK_ERROR UNKNOWN)

/-- interface ArchiveError of src/main.ts. -/
structure ArchiveError where
  type : ArchiveErrorType
  message : String
  serviceName : String
deriving DecidableEq, Repr

/-- On an optional string field, JS pattern f(field) guarded by truthiness:
field and f(field). -/
def strTest (o : Option String) (f : String → Bool) : Bool :=
  truthy o && f (o.getD "")

/-- classifyArchiveError of src/main.ts (lines 1982-2052), translated
branch by branch.  Note the second branch fires on any HTTP 403 because of
the disjunction in the source, which makes the IP_BLOCKED branch
unreachable for 403 responses. -/
def classifyArchiveError (err : ErrObj) (serviceName : String) : ArchiveError :=
  if err.status = some 429 ||
      strTest err.message (fun m =>
        jsIncludes (jsToLower m) "rate limit" || jsIncludes (jsToLower m) "too many requests") then
    { type := RATE_LIMITED,
      message := serviceName ++ " is rate limiting requests. Please wait a moment and try again.",
      serviceName := serviceName }
  else if err.status = some 403 ||
      strTest err.text (fun t =>
        jsIncludes t "captcha" || jsIncludes t "CAPTCHA" ||
        jsIncludes t "cloudflare" || jsIncludes t "challenge") then
    { type := CAPTCHA_REQUIRED,
      message := serviceName ++ " requires CAPTCHA verification. This service cannot be automated.",
      serviceName := serviceName }
  else if err.status = some 403 &&
      strTest err.message (fun m => jsIncludes (jsToLower m) "forbidden") then
    { type := IP_BLOCKED,
      message := serviceName ++ " has blocked this request. Your IP may be temporarily blocked.",
      serviceName := serviceName }
  else if err.status = some 503 || err.status = some 504 ||
      strTest err.message (fun m =>
        jsIncludes (jsToLower m) "service unavailable" || jsIncludes (jsToLower m) "gateway timeout") then
    { type := SERVICE_UNAVAILABLE,
      message := serviceName ++ " is currently unavailable. Please try again later.",
      serviceName := serviceName }
  else if strTest err.message (fun m =>
      jsIncludes (jsToLower m) "network" || jsIncludes (jsToLower m) "timeout" ||
      jsIncludes (jsToLower m) "econnrefused") then
    { type := NETWORK_ERROR,
      message := "Network error connecting to " ++ serviceName ++ ". Check your internet connection.",
      serviceName := serviceName }
  else
    { type := UNKNOWN,
      message := "Error accessing " ++ serviceName ++ ": " ++
        (if truthy err.message then err.message.getD "" else "Unknown error"),
      serviceName := serviceName }

/-! ## JS Map model -/

/-- Association list lookup, the value stored under a key. -/
def mapLookup (m : List (String × α)) (k : String) : Option α :=
  (m.find? (fun p => p.1 = k)).map (fun p => p.2)

/-- JS Map.set: update in place when the key is present, append otherwise. -/
def mapSet (m : List (String × α)) (k : String) (v : α) : List (String × α) :=
  if m.any (fun p => p.1 = k) then
    m.map (fun p => if p.1 = k then (k, v) else p)
  else
    m ++ [(k, v)]

/-- JS Map.delete. -/
def mapDelete (m : List (String × α)) (k : String) : List (String × α) :=
  m.filter (fun p => p.1 ≠ k)

/-! ## RateLimiter (src/main.ts lines 98-128) -/

/-- The constructor-installed per-service delays (milliseconds). -/
def rlDelays : List (String × Int) :=
  [("web.archive.org", 1000), ("ghostarchive.org", 2000),
   ("archive.ph", 2000), ("archive.li", 2000), ("archive.is", 2000),
   ("archive.vn", 2000), ("archive.md", 2000), ("archive.today", 2000)]

/-- this.delays.get(serviceName) || 1000 (JS: a missing or zero entry falls
back to 1000). -/
def rlDelay (serviceName : String) : Int :=
  match mapLookup rlDelays serviceName with
  | some d => if d = 0 then 1000 else d
  | none => 1000

/-- waitIfNeeded: returns the time at which the call completes together
with the updated lastRequestTime map.  In the idealized time model the
await of setTimeout(waitTime) completes exactly waitTime later, and the
final Date.now() then reads that completion time. -/
def waitIfNeeded (st : List (String × Int)) (serviceName : String) (now : Int) :
    Int × List (String × Int) :=
  let delay := rlDelay serviceName
  let lastRequest := (mapLookup st serviceName).getD 0
  let timeSinceLastRequest := now - lastRequest
  let finish := if timeSinceLastRequest < delay then now + (delay - timeSinceLastRequest) else now
  (finish, mapSet st serviceName finish)

/-! ## Data model of resolution results -/

/-- A snapshot candidate as produced by the providers. -/
structure Snapshot where
  url : String
  timestamp : String
  title : Option String := none
deriving DecidableEq, Repr

/-- The object returned by getExistingArchive; optional TS fields are
Options so that the cached value is compared field by field. -/
structure ResolutionResult where
  foundArchive : Bool
  archivedUrl : Option String := none
  snapshots : Option (List Snapshot) := none
  rateLimited : Option Bool := none
deriving DecidableEq, Repr

/-! ## ArchiveCache (src/main.ts lines 131-159) -/

/-- Entry of the archive result cache: the stored result and Date.now() at
store time. -/
structure CacheEntry where
  result : ResolutionResult
  timestamp : Int
deriving DecidableEq, Repr

/-- ttl of ArchiveCache: 5 minutes in milliseconds. -/
def cacheTtl : Int := 5 * 60 * 1000

/-- ArchiveCache.get with lazy expiry: an expired entry is deleted and
reported as a miss. -/
def cacheGet (c : List (String × CacheEntry)) (url : String) (now : Int) :
    Option ResolutionResult × List (String × CacheEntry) :=
  match mapLookup c url with
  | none => (none, c)
  | some entry =>
    if now - entry.timestamp > cacheTtl then (none, mapDelete c url)
    else (some entry.result, c)

/-- ArchiveCache.set. -/
def cacheSet (c : List (String × CacheEntry)) (url : String)
    (result : ResolutionResult) (now : Int) : List (String × CacheEntry) :=
  mapSet c url { result := result, timestamp := now }

/-! ## TitleCache (src/main.ts lines 162-203) -/

/-- Entry of the title cache. -/
structure TitleEntry where
  title : String
  timestamp : Int
deriving DecidableEq, Repr

/-- ttl of TitleCache: 24 hours in milliseconds. -/
def titleTtl : Int := 24 * 60 * 60 * 1000

/-- maxSize of TitleCache. -/
def titleMaxSize : Nat := 500

/-- TitleCache as its underlying insertion-ordered map. -/
structure TitleCache where
  entries : List (String × TitleEntry)
deriving DecidableEq, Repr

/-- TitleCache.get: lazy expiry, and on a hit the entry is deleted and
re-added, moving it to the most-recently-used (last) position. -/
def titleGet (c : TitleCache) (url : String) (now : Int) :
    Option String × TitleCache :=
  match mapLookup c.entries url with
  | none => (none, c)
  | some entry =>
    if now - entry.timestamp > titleTtl then
      (none, { entries := mapDelete c.entries url })
    else
      (some entry.title, { entries := mapSet (mapDelete c.entries url) url entry })

/-- TitleCache.set: when at capacity the first key of the map is evicted,
but only when that key is truthy — the JS guard if (firstKey) skips the
eviction when the first key is the empty string. -/
def titleSet (c : TitleCache) (url title : String) (now : Int) : TitleCache :=
  let entries :=
    if c.entries.length ≥ titleMaxSize then
      match c.entries.head? with
      | some p => if p.1 = "" then c.entries else mapDelete c.entries p.1
      | none => c.entries
    else c.entries
  { entries := mapSet entries url { title := title, timestamp := now } }

/-! ## Host Date and URL models -/

/-- A calendar date at day granularity, the resolution at which the source
compares Date values. -/
structure JsDate where
  year : Int
  month : Nat
  day : Nat
deriving DecidableEq, Repr

/-- Chronological strict order on calendar dates. -/
def jsDateLt (a b : JsDate) : Bool :=
  decide (a.year < b.year ∨ (a.year = b.year ∧
    (a.month < b.month ∨ (a.month = b.month ∧ a.day < b.day))))

/-- Numeric value of a decimal digit character. -/
def digitVal (c : Char) : Nat := c.toNat - '0'.toNat

/-- Parse a non-empty all-digit character list as a number. -/
def parseDigits (cs : List Char) : Option Nat :=
  if !cs.isEmpty && cs.all Char.isDigit then
    some (cs.foldl (fun n c => 10 * n + digitVal c) 0)
  else none

/-- Model of the host new Date(string) parser on ISO calendar dates
(YYYY-MM-DD).  Strings of any other shape — including the 14-digit Wayback
timestamps, which V8 does not parse — give an Invalid Date, modelled as
none. -/
def jsParseDate (s : String) : Option JsDate :=
  match s.data with
  | [y1, y2, y3, y4, '-', m1, m2, '-', d1, d2] =>
    match parseDigits [y1, y2, y3, y4], parseDigits [m1, m2], parseDigits [d1, d2] with
    | some y, some m, some d =>
      if 1 ≤ m ∧ m ≤ 12 ∧ 1 ≤ d ∧ d ≤ 31 then some ⟨(y : Int), m, d⟩ else none
    | _, _, _ => none
  | _ => none

/-- Unanchored regex search: some suffix of the string satisfies the
position matcher. -/
def scanAny (p : List Char → Bool) (s : String) : Bool :=
  s.data.tails.any p

/-- Position matcher for the regex d{4}-d{2}-d{2} (digit classes). -/
def isoDateAt : List Char → Bool
  | y1 :: y2 :: y3 :: y4 :: '-' :: m1 :: m2 :: '-' :: d1 :: d2 :: _ =>
    [y1, y2, y3, y4, m1, m2, d1, d2].all Char.isDigit
  | _ => false

/-- Position matcher for the regex d{2}/d{2}/d{4}. -/
def slashDateAt : List Char → Bool
  | a :: b :: '/' :: c :: d :: '/' :: e :: f :: g :: h :: _ =>
    [a, b, c, d, e, f, g, h].all Char.isDigit
  | _ => false

/-- Position matcher for the regex d{14}: fourteen consecutive digits. -/
def digitRun14At (cs : List Char) : Bool :=
  (cs.take 14).length = 14 && (cs.take 14).all Char.isDigit

/-- The month-name alternation of the DD Mon YYYY pattern. -/
def monthNames : List (List Char) :=
  (["Jan", "Feb", "Mar", "Apr", "May", "Jun",
    "Jul", "Aug", "Sep", "Oct", "Nov", "Dec"]).map String.data

/-- All remainders after consuming one or more leading whitespace
characters (the backtracking choices of a whitespace-plus regex atom). -/
def dropWsPrefixes : List Char → List (List Char)
  | [] => []
  | c :: rest =>
    if c.isWhitespace then rest :: dropWsPrefixes rest else []

/-- Four digits at this position. -/
def fourDigitsAt : List Char → Bool
  | a :: b :: c :: d :: _ => [a, b, c, d].all Char.isDigit
  | _ => false

/-- After the day digits: whitespace-plus, a month name, whitespace-plus,
four digits. -/
def dmyAfterDigits (cs : List Char) : Bool :=
  (dropWsPrefixes cs).any (fun r1 =>
    monthNames.any (fun m =>
      m.isPrefixOf r1 && (dropWsPrefixes (r1.drop m.length)).any fourDigitsAt))

/-- Position matcher for the regex d{1,2} ws+ (Jan|...|Dec) ws+ d{4}. -/
def dmyAt : List Char → Bool
  | c1 :: rest =>
    c1.isDigit && (dmyAfterDigits rest ||
      (match rest with
       | c2 :: rest2 => c2.isDigit && dmyAfterDigits rest2
       | [] => false))
  | [] => false

/-- isValidTimestamp of src/main.ts (lines 2185-2220).  The catch branch of
the source (year extraction by regex) is unreachable: new Date never
throws, an unparseable string merely yields an Invalid Date whose NaN year
fails the range test, so the function returns false there. -/
def isValidTimestamp (currentYear : Int) (timestamp : String) : Bool :=
  if timestamp = "" || timestamp = "Unknown date" then false
  else if !(scanAny isoDateAt timestamp || scanAny dmyAt timestamp ||
            scanAny slashDateAt timestamp || scanAny digitRun14At timestamp) then false
  else
    match jsParseDate timestamp with
    | some d => decide (1990 ≤ d.year ∧ d.year ≤ currentYear + 1)
    | none => false

/-- Model of the host URL constructor restricted to what the source reads:
hostname (lowercased, port stripped) and pathname (query and fragment
stripped, defaulting to the root path). -/
def jsURL (s : String) : Option (String × String) :=
  let cs := s.data
  let rest? : Option (List Char) :=
    if listIsPre "https://".data cs then some (cs.drop 8)
    else if listIsPre "http://".data cs then some (cs.drop 7)
    else none
  match rest? with
  | none => none
  | some rest =>
    let hostport := rest.takeWhile (fun c => c ≠ '/' && c ≠ '?' && c ≠ '#')
    let hostname := (hostport.takeWhile (fun c => c ≠ ':')).map Char.toLower
    if hostname.isEmpty then none
    else
      let after := rest.drop hostport.length
      let pathname := after.takeWhile (fun c => c ≠ '?' && c ≠ '#')
      some (String.mk hostname,
        if pathname.isEmpty then "/" else String.mk pathname)

/-- JS s.split(sep) for a single-character separator. -/
def splitOnChar (sep : Char) : List Char → List (List Char)
  | [] => [[]]
  | c :: rest =>
    match splitOnChar sep rest with
    | [] => [[]]
    | g :: gs => if c = sep then [] :: g :: gs else (c :: g) :: gs

/-! ## RelevanceScorer (src/main.ts, scoreSnapshotRelevance, lines 2352-2396) -/

/-- The short-code path shape: one segment of 3 to 10 alphanumerics. -/
def isShortCode (p : String) : Bool :=
  3 ≤ p.length && p.length ≤ 10 && p.data.all Char.isAlphanum

/-- The date path shape: 8 to 14 digits. -/
def isDateCode (p : String) : Bool :=
  8 ≤ p.length && p.length ≤ 14 && p.data.all Char.isDigit

/-- scoreSnapshotRelevance, with the ambient current date (new Date())
passed explicitly as today. -/
def scoreSnapshotRelevance (today : JsDate) (snapshot : Snapshot)
    (originalUrl : String) : Nat :=
  let timestampScore :=
    if isValidTimestamp today.year snapshot.timestamp then
      30 + (match jsParseDate snapshot.timestamp with
        | some d =>
          let twoYearsAgo : JsDate := { today with year := today.year - 2 }
          if jsDateLt twoYearsAgo d then 20 else 0
        | none => 0)
    else 0
  let urlScore :=
    match jsURL snapshot.url with
    | none => 0
    | some hp =>
      let pathParts := (splitOnChar '/' hp.2.data).filterMap (fun p =>
        if p.isEmpty then none else some (String.mk p))
      let shortCodeScore :=
        match pathParts with
        | [p] => if isShortCode p then 25 else 0
        | _ => 0
      let dateCodeScore :=
        match pathParts with
        | p0 :: p1 :: _ =>
          if isDateCode p0 then
            20 + (match jsURL originalUrl with
              | some ohp =>
                if jsIncludes p1 (jsReplaceFirst ohp.1 "www.") then 15 else 0
              | none => 0)
          else 0
        | _ => 0
      shortCodeScore + dateCodeScore
  timestampScore + urlScore

/-! ## Providers and the resolver (src/main.ts, getExistingArchive, lines 1801-1979) -/

/-- Snapshots built from the CDX rows (the rows after the header whose
length is at least 2), splicing the timestamp into the fixed template. -/
def waybackCandidates (rows : List (List String)) (originalUrl : String) :
    List Snapshot :=
  (rows.drop 1).filterMap (fun row =>
    match row with
    | _ :: timestamp :: _ =>
      some { url := "https://web.archive.org/web/" ++ timestamp ++ "/" ++ originalUrl,
             timestamp := timestamp }
    | _ => none)

/-- Lexicographic order on character lists by code point (the model of a
non-positive localeCompare on the ASCII timestamps at hand). -/
def charListLe : List Char → List Char → Bool
  | [], _ => true
  | _ :: _, [] => false
  | a :: as, b :: bs =>
    if a.toNat < b.toNat then true
    else if b.toNat < a.toNat then false
    else charListLe as bs

/-- The Wayback comparator: timestamps descending, by localeCompare in the
source, modelled as code-point lexicographic comparison. -/
def snapLeDesc (a b : Snapshot) : Bool :=
  charListLe b.timestamp.data a.timestamp.data

/-- The Wayback comparator as a relation. -/
def snapDescR (a b : Snapshot) : Prop := snapLeDesc a b = true

instance : DecidableRel snapDescR := fun a b => instDecidableEqBool (snapLeDesc a b) true

/-- The sort of the Wayback branch.  Array.prototype.sort is a stable sort
and snapLeDesc comes from a total preorder, so its result coincides with
the stable insertion sort. -/
def sortSnapshotsDesc (l : List Snapshot) : List Snapshot :=
  l.insertionSort snapDescR

/-- The GhostArchive comparator: parsed dates descending; a comparison
involving an unparseable date yields NaN in the source, which the sort
treats as no constraint, modelled as true. -/
def ghostLe (a b : Snapshot) : Bool :=
  match jsParseDate a.timestamp, jsParseDate b.timestamp with
  | some x, some y => !(jsDateLt x y)
  | _, _ => true

/-- The GhostArchive comparator as a relation. -/
def ghostR (a b : Snapshot) : Prop := ghostLe a b = true

instance : DecidableRel ghostR := fun a b => instDecidableEqBool (ghostLe a b) true

/-- What the Wayback CDX request produced on one attempt: a response (its
status and its JSON body when the body parsed as a JSON array) or a thrown
transport error. -/
inductive WaybackResp where
  | ok (status : Int) (json : Option (List (List String)))
  | err (e : ErrObj)

/-- What GhostArchiveArchiver.getSnapshots produced on one attempt. -/
inductive GhostResp where
  | ok (snaps : List Snapshot)
  | err (e : ErrObj)

/-- Observable outcome of a getExistingArchive run: the returned result,
the final cache and rate-limiter states, the number of provider requests
issued, the backoff sleeps performed (milliseconds, in order), the number
of rate-limiter waits, and the time at which the call returns. -/
structure RunResult where
  result : ResolutionResult
  cache : List (String × CacheEntry)
  rl : List (String × Int)
  networkCalls : Nat
  sleeps : List Int
  waits : Nat
  endTime : Int
deriving DecidableEq, Repr

/-- The shared fall-through tail of getExistingArchive (lines 1971-1978):
build the negative result, store it in the cache, return it. -/
def negativeReturn (cache : List (String × CacheEntry)) (rl : List (String × Int))
    (url : String) (t1 : Int) (calls : Nat) : RunResult :=
  let result : ResolutionResult := { foundArchive := false }
  ⟨result, cacheSet cache url result t1, rl, calls, [], 1, t1⟩

/-- getExistingArchive of src/main.ts, with the configured archive site,
the provider responses per retry counter, and the mutable stores passed
explicitly. -/
def getExistingArchive (site : String) (wb : Nat → WaybackResp)
    (gh : Nat → GhostResp) (cache : List (String × CacheEntry))
    (rl : List (String × Int)) (now : Int) (url : String)
    (retryCount : Nat) : RunResult :=
  let cres := if retryCount = 0 then cacheGet cache url now else (none, cache)
  match cres.1 with
  | some r => ⟨r, cres.2, rl, 0, [], 0, now⟩
  | none =>
    let cache1 := cres.2
    let w := waitIfNeeded rl site now
    let t1 := w.1
    let rl1 := w.2
    if site = "web.archive.org" then
      match wb retryCount with
      | .ok status json =>
        let positive : Option (List Snapshot) :=
          match json with
          | some arr =>
            if status = 200 ∧ arr.length > 1 then
              let snaps := waybackCandidates arr url
              if snaps.length > 0 then some (sortSnapshotsDesc snaps) else none
            else none
          | none => none
        match positive with
        | some (s :: rest) =>
          let result : ResolutionResult :=
            { foundArchive := true, archivedUrl := some s.url,
              snapshots := some (s :: rest) }
          ⟨result, cacheSet cache1 url result t1, rl1, 1, [], 1, t1⟩
        | some [] => negativeReturn cache1 rl1 url t1 1
        | none => negativeReturn cache1 rl1 url t1 1
      | .err e =>
        let ae := classifyArchiveError e "Wayback Machine"
        if ae.type = RATE_LIMITED then
          ⟨{ foundArchive := false, rateLimited := some true }, cache1, rl1, 1, [], 1, t1⟩
        else if hretry : retryCount < 2 ∧
            (ae.type = NETWORK_ERROR ∨ ae.type = SERVICE_UNAVAILABLE) then
          let delay : Int := (2 ^ retryCount : Nat) * 1000
          let inner := getExistingArchive site wb gh cache1 rl1 (t1 + delay) url
            (retryCount + 1)
          ⟨inner.result, inner.cache, inner.rl, inner.networkCalls + 1,
            delay :: inner.sleeps, inner.waits + 1, inner.endTime⟩
        else
          negativeReturn cache1 rl1 url t1 1
    else if site = "ghostarchive.org" then
      match gh retryCount with
      | .ok snaps =>
        if snaps.length > 0 then
          match snaps.insertionSort ghostR with
          | s :: rest =>
            let result : ResolutionResult :=
              { foundArchive := true, archivedUrl := some s.url,
                snapshots := some (s :: rest) }
            ⟨result, cacheSet cache1 url result t1, rl1, 1, [], 1, t1⟩
          | [] => negativeReturn cache1 rl1 url t1 1
        else negativeReturn cache1 rl1 url t1 1
      | .err e =>
        let ae := classifyArchiveError e "GhostArchive"
        if ae.type = RATE_LIMITED then
          ⟨{ foundArchive := false, rateLimited := some true }, cache1, rl1, 1, [], 1, t1⟩
        else
          negativeReturn cache1 rl1 url t1 1
    else
      negativeReturn cache1 rl1 url t1 0
termination_by 2 - retryCount
decreasing_by
  omega

/-! ## Helper lemmas on the JS Map model -/

theorem mapLookup_map_update {α : Type} (m : List (String × α)) (k : String) (v : α)
    (h : m.any (fun p => p.1 = k) = true) :
    mapLookup (m.map (fun p => if p.1 = k then (k, v) else p)) k = some v := by
  induction m with
  | nil => simp at h
  | cons p rest ih =>
    by_cases hp : p.1 = k
    · simp [mapLookup, List.find?, hp]
    · have h' : rest.any (fun p => p.1 = k) = true := by
        simpa [List.any_cons, hp] using h
      simpa [mapLookup, List.find?, hp] using ih h'

theorem mapLookup_append_last {α : Type} (m : List (String × α)) (k : String) (v : α)
    (h : m.any (fun p => p.1 = k) = false) :
    mapLookup (m ++ [(k, v)]) k = some v := by
  induction m with
  | nil => simp [mapLookup, List.find?]
  | cons p rest ih =>
    have hp : ¬ p.1 = k := by
      intro hk
      simp [List.any_cons, hk] at h
    have h' : rest.any (fun p => p.1 = k) = false := by
      simpa [List.any_cons, hp] using h
    simpa [mapLookup, List.find?, hp] using ih h'

theorem mapLookup_mapSet_self {α : Type} (m : List (String × α)) (k : String) (v : α) :
    mapLookup (mapSet m k v) k = some v := by
  unfold mapSet
  by_cases h : m.any (fun p => p.1 = k) = true
  · rw [if_pos h]
    exact mapLookup_map_update m k v h
  · rw [if_neg h]
    exact mapLookup_append_last m k v (Bool.not_eq_true _ ▸ eq_false_of_ne_true h)

theorem mapSet_of_fresh {α : Type} (m : List (String × α)) (k : String) (v : α)
    (h : m.any (fun p => p.1 = k) = false) :
    mapSet m k v = m ++ [(k, v)] := by
  unfold mapSet
  rw [if_neg]
  simp [h]

theorem mapSet_length_le {α : Type} (m : List (String × α)) (k : String) (v : α) :
    (mapSet m k v).length ≤ m.length + 1 := by
  unfold mapSet
  split
  · simp
  · simp

theorem mapDelete_length_le {α : Type} (m : List (String × α)) (k : String) :
    (mapDelete m k).length ≤ m.length :=
  List.length_filter_le _ m

theorem mapDelete_cons_self_of_fresh {α : Type} (p : String × α)
    (tl : List (String × α)) (h : tl.any (fun q => q.1 = p.1) = false) :
    mapDelete (p :: tl) p.1 = tl := by
  unfold mapDelete
  rw [List.filter_cons]
  simp only [decide_not, decide_eq_true_eq]
  rw [if_neg (by simp)]
  apply List.filter_eq_self.mpr
  intro q hq
  have : ¬ q.1 = p.1 := by
    intro he
    have := List.any_eq_false.mp h q hq
    simp [he] at this
  simp [this]

theorem mapDelete_length_lt {α : Type} (m : List (String × α)) (k : String) (v : α)
    (h : mapLookup m k = some v) :
    (mapDelete m k).length < m.length := by
  unfold mapLookup at h
  obtain ⟨p, hfind⟩ : ∃ p, m.find? (fun p => p.1 = k) = some p := by
    cases hf : m.find? (fun p => p.1 = k) with
    | none => rw [hf] at h; simp at h
    | some p => exact ⟨p, rfl⟩
  have hmem : p ∈ m := List.mem_of_find?_eq_some hfind
  have hpk : p.1 = k := by simpa using List.find?_some hfind
  apply List.length_filter_lt_length_iff_exists.mpr
  exact ⟨p, hmem, by simp [hpk]⟩

/-! ## Order lemmas for the timestamp comparator -/

theorem charListLe_total : ∀ x y : List Char, charListLe x y = true ∨ charListLe y x = true
  | [], _ => Or.inl rfl
  | _ :: _, [] => Or.inr rfl
  | a :: as, b :: bs => by
    rcases Nat.lt_trichotomy a.toNat b.toNat with h | h | h
    · left; simp [charListLe, h]
    · rcases charListLe_total as bs with ih | ih
      · left; simp [charListLe, h, ih]
      · right; simp [charListLe, h.symm, ih]
    · right; simp [charListLe, h]

theorem charListLe_trans : ∀ x y z : List Char,
    charListLe x y = true → charListLe y z = true → charListLe x z = true
  | [], _, _, _, _ => rfl
  | a :: as, [], _, h, _ => by simp [charListLe] at h
  | _ :: _, _ :: _, [], _, h => by simp [charListLe] at h
  | a :: as, b :: bs, c :: cs, h1, h2 => by
    simp only [charListLe] at h1 h2 ⊢
    split at h1 <;> try split at h1
    all_goals (split at h2 <;> try split at h2)
    all_goals (split <;> try split)
    all_goals
      first
        | rfl
        | exact (Bool.false_ne_true h1).elim
        | exact (Bool.false_ne_true h2).elim
        | exact charListLe_trans as bs cs h1 h2
        | omega

instance : IsTotal Snapshot snapDescR :=
  ⟨fun a b => charListLe_total b.timestamp.data a.timestamp.data⟩

instance : IsTrans Snapshot snapDescR :=
  ⟨fun a b c h1 h2 => charListLe_trans c.timestamp.data b.timestamp.data a.timestamp.data h2 h1⟩

/-- The first component of waitIfNeeded, written out. -/
theorem waitIfNeeded_fst_spec (st : List (String × Int)) (s : String) (now : Int) :
    (waitIfNeeded st s now).1 =
      if now - (mapLookup st s).getD 0 < rlDelay s
      then now + (rlDelay s - (now - (mapLookup st s).getD 0))
      else now := rfl

/-! ## Claim theorems -/

/-- C9: classifyArchiveError is total and deterministic: every error object
is classified into one of the six members of the closed taxonomy (no case
escapes or throws), and the classification of an input is a function of
that input alone: the same input always yields the same result. -/
theorem classifyArchiveError_total_deterministic (err : ErrObj) (serviceName : String) :
    classifyArchiveError err serviceName = classifyArchiveError err serviceName ∧
    ((classifyArchiveError err serviceName).type = RATE_LIMITED ∨
     (classifyArchiveError err serviceName).type = CAPTCHA_REQUIRED ∨
     (classifyArchiveError err serviceName).type = IP_BLOCKED ∨
     (classifyArchiveError err serviceName).type = SERVICE_UNAVAILABLE ∨
     (classifyArchiveError err serviceName).type = NETWORK_ERROR ∨
     (classifyArchiveError err serviceName).type = UNKNOWN) := by
  refine ⟨rfl, ?_⟩
  cases (classifyArchiveError err serviceName).type <;> simp

/-- C5: a 403 whose body has no CAPTCHA/Cloudflare/challenge marker and
whose message is a generic Forbidden is classified CAPTCHA_REQUIRED, not
IP_BLOCKED: the disjunction err.status === 403 || ... in the CAPTCHA branch
of classifyArchiveError fires on any 403, so the dedicated IP_BLOCKED
branch below it is unreachable, contradicting the classification order the
spec (and the dead branch itself) describe. -/
theorem forbidden403_misclassified_as_captcha :
    (classifyArchiveError
        { status := some 403, message := some "Forbidden", text := some "Forbidden" }
        "Wayback Machine").type = CAPTCHA_REQUIRED ∧
    (classifyArchiveError
        { status := some 403, message := some "Forbidden", text := some "Forbidden" }
        "Wayback Machine").type ≠ IP_BLOCKED := by
  decide

/-- C7: for every service, two consecutive completions of waitIfNeeded are
at least the configured minimum gap apart, and each call stores its own
completion time as the service's last-request time. -/
theorem waitIfNeeded_min_gap (st : List (String × Int)) (serviceName : String)
    (now1 now2 : Int) :
    rlDelay serviceName ≤
      (waitIfNeeded (waitIfNeeded st serviceName now1).2 serviceName now2).1 -
        (waitIfNeeded st serviceName now1).1 ∧
    mapLookup (waitIfNeeded st serviceName now1).2 serviceName =
      some (waitIfNeeded st serviceName now1).1 ∧
    mapLookup (waitIfNeeded (waitIfNeeded st serviceName now1).2 serviceName now2).2
        serviceName =
      some (waitIfNeeded (waitIfNeeded st serviceName now1).2 serviceName now2).1 := by
  have hlook1 : mapLookup (waitIfNeeded st serviceName now1).2 serviceName =
      some (waitIfNeeded st serviceName now1).1 :=
    mapLookup_mapSet_self st serviceName _
  refine ⟨?_, hlook1, mapLookup_mapSet_self _ serviceName _⟩
  rw [waitIfNeeded_fst_spec ((waitIfNeeded st serviceName now1).2) serviceName now2, hlook1]
  simp only [Option.getD_some]
  split <;> omega

/-- C1 counterexample: a successful Wayback resolution whose returned
snapshots list is NOT sorted by descending relevance score, and whose
unparseable-timestamp snapshot comes first rather than last.  The CDX rows
carry timestamps zzzzzzzz (no timestamp pattern matches, relevance score 0)
and 2023-06-15 (valid, score 30); the code orders by timestamp text
descending, so the score-0 snapshot leads. -/
theorem snapshots_not_score_sorted_cex :
    (getExistingArchive "web.archive.org"
        (fun _ => .ok 200 (some [["urlkey", "timestamp", "original"],
          ["k1", "zzzzzzzz", "o"], ["k2", "2023-06-15", "o"]]))
        (fun _ => .ok []) [] [] 0 "https://example.com" 0).result.snapshots =
      some [{ url := "https://web.archive.org/web/zzzzzzzz/https://example.com",
              timestamp := "zzzzzzzz" },
            { url := "https://web.archive.org/web/2023-06-15/https://example.com",
              timestamp := "2023-06-15" }] ∧
    scoreSnapshotRelevance ⟨2026, 10, 11⟩
        { url := "https://web.archive.org/web/zzzzzzzz/https://example.com",
          timestamp := "zzzzzzzz" } "https://example.com" = 0 ∧
    scoreSnapshotRelevance ⟨2026, 10, 11⟩
        { url := "https://web.archive.org/web/2023-06-15/https://example.com",
          timestamp := "2023-06-15" } "https://example.com" = 30 ∧
    isValidTimestamp 2026 "zzzzzzzz" = false := by
  rw [getExistingArchive.eq_def]
  decide

/-- Body analysis for the Wayback sortedness invariant, by induction on the
remaining retry budget. -/
theorem wayback_sorted_aux : ∀ (n rc : Nat), 2 - rc ≤ n →
    ∀ (wb : Nat → WaybackResp) (gh : Nat → GhostResp) (rl : List (String × Int))
      (now : Int) (url : String),
    ((getExistingArchive "web.archive.org" wb gh [] rl now url rc).result.snapshots.getD
      []).Pairwise snapDescR := by
  intro n
  induction n with
  | zero =>
    intro rc hrc wb gh rl now url
    rw [getExistingArchive.eq_def]
    rw [show cacheGet [] url now = (none, []) from rfl, ite_self]
    simp only [reduceIte]
    cases hwb : wb rc with
    | ok status json =>
      cases json with
      | none => simp [negativeReturn]
      | some arr =>
        simp only []
        by_cases hcond : status = 200 ∧ arr.length > 1
        · rw [if_pos hcond]
          by_cases hlen : (waybackCandidates arr url).length > 0
          · rw [if_pos hlen]
            rcases hs : sortSnapshotsDesc (waybackCandidates arr url) with _ | ⟨s, rest⟩
            · simp [negativeReturn]
            · simp only [Option.getD_some]
              have := List.sorted_insertionSort snapDescR (waybackCandidates arr url)
              rw [show (List.insertionSort snapDescR (waybackCandidates arr url)) =
                sortSnapshotsDesc (waybackCandidates arr url) from rfl, hs] at this
              simpa using this
          · rw [if_neg hlen]; simp [negativeReturn]
        · rw [if_neg hcond]; simp [negativeReturn]
    | err e =>
      simp only []
      by_cases hRL : (classifyArchiveError e "Wayback Machine").type = RATE_LIMITED
      · rw [if_pos hRL]; simp
      · rw [if_neg hRL]
        by_cases hretry : rc < 2 ∧
            ((classifyArchiveError e "Wayback Machine").type = NETWORK_ERROR ∨
             (classifyArchiveError e "Wayback Machine").type = SERVICE_UNAVAILABLE)
        · exact absurd hretry.1 (by omega)
        · rw [dif_neg hretry]; simp [negativeReturn]
  | succ n ih =>
    intro rc hrc wb gh rl now url
    rw [getExistingArchive.eq_def]
    rw [show cacheGet [] url now = (none, []) from rfl, ite_self]
    simp only [reduceIte]
    cases hwb : wb rc with
    | ok status json =>
      cases json with
      | none => simp [negativeReturn]
      | some arr =>
        simp only []
        by_cases hcond : status = 200 ∧ arr.length > 1
        · rw [if_pos hcond]
          by_cases hlen : (waybackCandidates arr url).length > 0
          · rw [if_pos hlen]
            rcases hs : sortSnapshotsDesc (waybackCandidates arr url) with _ | ⟨s, rest⟩
            · simp [negativeReturn]
            · simp only [Option.getD_some]
              have := List.sorted_insertionSort snapDescR (waybackCandidates arr url)
              rw [show (List.insertionSort snapDescR (waybackCandidates arr url)) =
                sortSnapshotsDesc (waybackCandidates arr url) from rfl, hs] at this
              simpa using this
          · rw [if_neg hlen]; simp [negativeReturn]
        · rw [if_neg hcond]; simp [negativeReturn]
    | err e =>
      simp only []
      by_cases hRL : (classifyArchiveError e "Wayback Machine").type = RATE_LIMITED
      · rw [if_pos hRL]; simp
      · rw [if_neg hRL]
        by_cases hretry : rc < 2 ∧
            ((classifyArchiveError e "Wayback Machine").type = NETWORK_ERROR ∨
             (classifyArchiveError e "Wayback Machine").type = SERVICE_UNAVAILABLE)
        · rw [dif_pos hretry]
          exact ih (rc + 1) (by omega) wb gh _ _ url
        · rw [dif_neg hretry]; simp [negativeReturn]

/-- C1 amended: for every Wayback resolution (any CDX responses, any retry
counter, empty starting cache), the snapshots list of the returned result
is sorted by descending timestamp (code-point lexicographic, the model of
the localeCompare comparator); the relevance scorer plays no part in this
order. -/
theorem wayback_snapshots_sorted_desc_timestamp (wb : Nat → WaybackResp)
    (gh : Nat → GhostResp) (rl : List (String × Int)) (now : Int) (url : String)
    (rc : Nat) :
    ((getExistingArchive "web.archive.org" wb gh [] rl now url rc).result.snapshots.getD
      []).Pairwise snapDescR :=
  wayback_sorted_aux (2 - rc) rc (Nat.le_refl _) wb gh rl now url

/-- C3: whenever the provider attempt fails with an error classified
RATE_LIMITED (for either configured provider), getExistingArchive returns
found=false with rateLimited=true immediately: one provider call, no
backoff sleep, and the result cache is left exactly as the initial
cache-miss lookup left it (the result is not stored). -/
theorem rate_limited_immediate_uncached
    (site url : String) (wb : Nat → WaybackResp) (gh : Nat → GhostResp)
    (cache cache2 : List (String × CacheEntry)) (rl : List (String × Int))
    (now : Int) (e : ErrObj)
    (hmiss : cacheGet cache url now = (none, cache2))
    (hcase : (site = "web.archive.org" ∧ wb 0 = .err e ∧
        (classifyArchiveError e "Wayback Machine").type = RATE_LIMITED) ∨
      (site = "ghostarchive.org" ∧ gh 0 = .err e ∧
        (classifyArchiveError e "GhostArchive").type = RATE_LIMITED)) :
    (getExistingArchive site wb gh cache rl now url 0).result =
      { foundArchive := false, rateLimited := some true } ∧
    (getExistingArchive site wb gh cache rl now url 0).cache = cache2 ∧
    (getExistingArchive site wb gh cache rl now url 0).networkCalls = 1 ∧
    (getExistingArchive site wb gh cache rl now url 0).sleeps = [] := by
  rcases hcase with ⟨hsite, hwb, hRL⟩ | ⟨hsite, hgh, hRL⟩
  · subst hsite
    rw [getExistingArchive.eq_def]
    simp only [reduceIte, hmiss, hwb]
    rw [if_pos hRL]
    exact ⟨rfl, rfl, rfl, rfl⟩
  · subst hsite
    rw [getExistingArchive.eq_def]
    simp only [reduceIte, hmiss, hgh]
    rw [if_pos hRL]
    exact ⟨rfl, rfl, rfl, rfl⟩

/-- Witness for C3: the Wayback provider throwing an HTTP 429 on an empty
cache. -/
theorem rate_limited_immediate_uncached_witness :
    (getExistingArchive "web.archive.org"
        (fun _ => .err { status := some 429, message := none, text := none })
        (fun _ => .ok []) [] [] 0 "u" 0).result =
      { foundArchive := false, rateLimited := some true } ∧
    (getExistingArchive "web.archive.org"
        (fun _ => .err { status := some 429, message := none, text := none })
        (fun _ => .ok []) [] [] 0 "u" 0).cache = [] := by
  have h := rate_limited_immediate_uncached "web.archive.org" "u"
    (fun _ => .err { status := some 429, message := none, text := none })
    (fun _ => .ok []) [] [] [] 0
    { status := some 429, message := none, text := none }
    (by decide) (Or.inl ⟨rfl, rfl, by decide⟩)
  exact ⟨h.1, h.2.1⟩

/-- C10: for any configured archive service other than web.archive.org and
ghostarchive.org, getExistingArchive waits on the rate limiter, contacts no
provider, returns found=false and stores that negative result in the
ResultCache. -/
theorem unknown_site_no_provider_call
    (site url : String) (wb : Nat → WaybackResp) (gh : Nat → GhostResp)
    (cache cache2 : List (String × CacheEntry)) (rl : List (String × Int))
    (now : Int)
    (h1 : site ≠ "web.archive.org") (h2 : site ≠ "ghostarchive.org")
    (hmiss : cacheGet cache url now = (none, cache2)) :
    (getExistingArchive site wb gh cache rl now url 0).result =
      { foundArchive := false } ∧
    (getExistingArchive site wb gh cache rl now url 0).networkCalls = 0 ∧
    (getExistingArchive site wb gh cache rl now url 0).waits = 1 ∧
    mapLookup (getExistingArchive site wb gh cache rl now url 0).cache url =
      some { result := { foundArchive := false },
             timestamp := (getExistingArchive site wb gh cache rl now url 0).endTime } := by
  rw [getExistingArchive.eq_def]
  simp only [reduceIte, hmiss]
  rw [if_neg h1, if_neg h2]
  refine ⟨rfl, rfl, rfl, ?_⟩
  exact mapLookup_mapSet_self cache2 url _

/-- Witness for C10: the deprecated archive.ph service name on an empty
cache. -/
theorem unknown_site_no_provider_call_witness :
    (getExistingArchive "archive.ph" (fun _ => .ok 0 none) (fun _ => .ok [])
        [] [] 0 "u" 0).result = { foundArchive := false } ∧
    (getExistingArchive "archive.ph" (fun _ => .ok 0 none) (fun _ => .ok [])
        [] [] 0 "u" 0).networkCalls = 0 := by
  have h := unknown_site_no_provider_call "archive.ph" "u" (fun _ => .ok 0 none)
    (fun _ => .ok []) [] [] [] 0 (by decide) (by decide) (by decide)
  exact ⟨h.1, h.2.1⟩

/-- C2 counterexample: a Wayback failure classified UNKNOWN does get
stored in the ResultCache — the catch block falls through to the shared
negative-caching tail — contradicting the claim that such results are
returned uncached. -/
theorem unknown_error_result_cached_cex :
    (classifyArchiveError { status := none, message := none, text := none }
        "Wayback Machine").type = UNKNOWN ∧
    (getExistingArchive "web.archive.org"
        (fun _ => .err { status := none, message := none, text := none })
        (fun _ => .ok []) [] [] 0 "u" 0).cache =
      [("u", { result := { foundArchive := false }, timestamp := 1000 })] := by
  rw [getExistingArchive.eq_def]
  decide

/-- Auxiliary for C2: when every Wayback attempt throws and no error is
classified RATE_LIMITED, a run entered at any nonzero retry counter ends in
the shared tail: bare negative result, stored in the cache. -/
theorem wayback_err_all_cached_aux (wb : Nat → WaybackResp) (gh : Nat → GhostResp)
    (url : String) (e : Nat → ErrObj)
    (herr : ∀ i, wb i = .err (e i))
    (hnotRL : ∀ i, (classifyArchiveError (e i) "Wayback Machine").type ≠ RATE_LIMITED) :
    ∀ (n rc : Nat), 2 - rc ≤ n → rc ≠ 0 →
    ∀ (cache : List (String × CacheEntry)) (rl : List (String × Int)) (now : Int),
    (getExistingArchive "web.archive.org" wb gh cache rl now url rc).result =
      { foundArchive := false } ∧
    mapLookup (getExistingArchive "web.archive.org" wb gh cache rl now url rc).cache url =
      some { result := { foundArchive := false },
             timestamp :=
               (getExistingArchive "web.archive.org" wb gh cache rl now url rc).endTime } := by
  intro n
  induction n with
  | zero =>
    intro rc hrc hrc0 cache rl now
    rw [getExistingArchive.eq_def]
    rw [if_neg hrc0]
    simp only [reduceIte, herr rc]
    rw [if_neg (hnotRL rc)]
    rw [dif_neg (fun hc => absurd hc.1 (by omega))]
    exact ⟨rfl, mapLookup_mapSet_self _ url _⟩
  | succ n ih =>
    intro rc hrc hrc0 cache rl now
    rw [getExistingArchive.eq_def]
    rw [if_neg hrc0]
    simp only [reduceIte, herr rc]
    rw [if_neg (hnotRL rc)]
    by_cases hretry : rc < 2 ∧
        ((classifyArchiveError (e rc) "Wayback Machine").type = NETWORK_ERROR ∨
         (classifyArchiveError (e rc) "Wayback Machine").type = SERVICE_UNAVAILABLE)
    · rw [dif_pos hretry]
      exact ih (rc + 1) (by omega) (by omega) cache _ _
    · rw [dif_neg hretry]
      exact ⟨rfl, mapLookup_mapSet_self _ url _⟩

/-- C2 amended: for the Wayback provider, when a failure is classified
CAPTCHA_REQUIRED, IP_BLOCKED or UNKNOWN, and when NETWORK_ERROR or
SERVICE_UNAVAILABLE failures persist until both retries are exhausted,
resolveArchive returns ResolutionResult(found=false) and DOES store that
negative result in the ResultCache (only the RATE_LIMITED outcome is
returned uncached): the catch block falls through to the shared
negative-caching tail. -/
theorem error_results_cached_unless_rate_limited
    (wb : Nat → WaybackResp) (gh : Nat → GhostResp)
    (cache cache2 : List (String × CacheEntry)) (rl : List (String × Int))
    (now : Int) (url : String) (e : Nat → ErrObj)
    (hmiss : cacheGet cache url now = (none, cache2))
    (herr : ∀ i, wb i = .err (e i))
    (hnotRL : ∀ i, (classifyArchiveError (e i) "Wayback Machine").type ≠ RATE_LIMITED) :
    (getExistingArchive "web.archive.org" wb gh cache rl now url 0).result =
      { foundArchive := false } ∧
    mapLookup (getExistingArchive "web.archive.org" wb gh cache rl now url 0).cache url =
      some { result := { foundArchive := false },
             timestamp :=
               (getExistingArchive "web.archive.org" wb gh cache rl now url 0).endTime } := by
  rw [getExistingArchive.eq_def]
  simp only [reduceIte, hmiss, herr 0]
  rw [if_neg (hnotRL 0)]
  by_cases hretry : (0 : Nat) < 2 ∧
      ((classifyArchiveError (e 0) "Wayback Machine").type = NETWORK_ERROR ∨
       (classifyArchiveError (e 0) "Wayback Machine").type = SERVICE_UNAVAILABLE)
  · rw [dif_pos hretry]
    exact wayback_err_all_cached_aux wb gh url e herr hnotRL 1 1 (by omega) (by omega)
      cache2 _ _
  · rw [dif_neg hretry]
    exact ⟨rfl, mapLookup_mapSet_self _ url _⟩

/-- Witness for C2: every attempt throws a bare error (classified UNKNOWN)
on an empty cache. -/
theorem error_results_cached_unless_rate_limited_witness :
    (getExistingArchive "web.archive.org"
        (fun _ => .err { status := none, message := none, text := none })
        (fun _ => .ok []) [] [] 5 "u" 0).result = { foundArchive := false } ∧
    mapLookup (getExistingArchive "web.archive.org"
        (fun _ => .err { status := none, message := none, text := none })
        (fun _ => .ok []) [] [] 5 "u" 0).cache "u" =
      some { result := { foundArchive := false },
             timestamp :=
               (getExistingArchive "web.archive.org"
                   (fun _ => .err { status := none, message := none, text := none })
                   (fun _ => .ok []) [] [] 5 "u" 0).endTime } :=
  error_results_cached_unless_rate_limited
    (fun _ => .err { status := none, message := none, text := none })
    (fun _ => .ok []) [] [] [] 5 "u"
    (fun _ => { status := none, message := none, text := none })
    (by decide) (fun _ => rfl)
    (fun _ => (by decide :
      (classifyArchiveError { status := none, message := none, text := none }
        "Wayback Machine").type ≠ RATE_LIMITED))

/-- C4 counterexample: with the GhostArchive provider a failure classified
NETWORK_ERROR is not retried at all — one provider call, no backoff sleep —
contradicting the claim that every configured provider retries such
failures. -/
theorem ghost_failure_not_retried_cex :
    (classifyArchiveError { status := none, message := some "network down", text := none }
        "GhostArchive").type = NETWORK_ERROR ∧
    (getExistingArchive "ghostarchive.org" (fun _ => .ok 0 none)
        (fun _ => .err { status := none, message := some "network down", text := none })
        [] [] 0 "u" 0).networkCalls = 1 ∧
    (getExistingArchive "ghostarchive.org" (fun _ => .ok 0 none)
        (fun _ => .err { status := none, message := some "network down", text := none })
        [] [] 0 "u" 0).sleeps = [] := by
  rw [getExistingArchive.eq_def]
  decide

/-- C4 amended: only the Wayback provider retries: NETWORK_ERROR or
SERVICE_UNAVAILABLE failures are retried up to twice, sleeping
2^retryCount seconds (1000 ms then 2000 ms) before each retry, for three
provider calls in all before surfacing found=false; the GhostArchive
branch performs no retry for any failure (one provider call, no sleep). -/
theorem wayback_retries_with_backoff_ghost_does_not
    (wb : Nat → WaybackResp) (gh : Nat → GhostResp)
    (cache cache2 : List (String × CacheEntry)) (rl : List (String × Int))
    (now : Int) (url : String) (e : Nat → ErrObj) (eg : ErrObj)
    (hmiss : cacheGet cache url now = (none, cache2))
    (herr : ∀ i, wb i = .err (e i))
    (hretryable : ∀ i,
      (classifyArchiveError (e i) "Wayback Machine").type = NETWORK_ERROR ∨
      (classifyArchiveError (e i) "Wayback Machine").type = SERVICE_UNAVAILABLE)
    (hgh : gh 0 = .err eg) :
    (getExistingArchive "web.archive.org" wb gh cache rl now url 0).networkCalls = 3 ∧
    (getExistingArchive "web.archive.org" wb gh cache rl now url 0).sleeps = [1000, 2000] ∧
    (getExistingArchive "web.archive.org" wb gh cache rl now url 0).result =
      { foundArchive := false } ∧
    (getExistingArchive "ghostarchive.org" wb gh cache rl now url 0).networkCalls = 1 ∧
    (getExistingArchive "ghostarchive.org" wb gh cache rl now url 0).sleeps = [] := by
  have hnRL : ∀ i, (classifyArchiveError (e i) "Wayback Machine").type ≠ RATE_LIMITED := by
    intro i
    rcases hretryable i with h | h <;> simp [h]
  have h2 : ∀ (c : List (String × CacheEntry)) (r : List (String × Int)) (t : Int),
      getExistingArchive "web.archive.org" wb gh c r t url 2 =
        negativeReturn c (waitIfNeeded r "web.archive.org" t).2 url
          (waitIfNeeded r "web.archive.org" t).1 1 := by
    intro c r t
    rw [getExistingArchive.eq_def]
    rw [if_neg (show ¬((2 : Nat) = 0) by omega)]
    simp only [reduceIte, herr 2]
    rw [if_neg (hnRL 2)]
    rw [dif_neg (fun hc => absurd hc.1 (by omega))]
  have h1 : ∀ (c : List (String × CacheEntry)) (r : List (String × Int)) (t : Int),
      (getExistingArchive "web.archive.org" wb gh c r t url 1).networkCalls = 2 ∧
      (getExistingArchive "web.archive.org" wb gh c r t url 1).sleeps = [2000] ∧
      (getExistingArchive "web.archive.org" wb gh c r t url 1).result =
        { foundArchive := false } := by
    intro c r t
    rw [getExistingArchive.eq_def]
    rw [if_neg (show ¬((1 : Nat) = 0) by omega)]
    simp only [reduceIte, herr 1]
    rw [if_neg (hnRL 1)]
    rw [dif_pos ⟨by omega, hretryable 1⟩]
    rw [h2]
    refine ⟨rfl, ?_, rfl⟩
    norm_num [negativeReturn]
  have hwb0 : (getExistingArchive "web.archive.org" wb gh cache rl now url 0).networkCalls = 3 ∧
      (getExistingArchive "web.archive.org" wb gh cache rl now url 0).sleeps = [1000, 2000] ∧
      (getExistingArchive "web.archive.org" wb gh cache rl now url 0).result =
        { foundArchive := false } := by
    rw [getExistingArchive.eq_def]
    simp only [reduceIte, hmiss, herr 0]
    rw [if_neg (hnRL 0)]
    rw [dif_pos ⟨by omega, hretryable 0⟩]
    obtain ⟨hc1, hs1, hr1⟩ := h1 cache2 (waitIfNeeded rl "web.archive.org" now).2
      ((waitIfNeeded rl "web.archive.org" now).1 + (2 ^ 0 : Nat) * 1000)
    refine ⟨?_, ?_, ?_⟩
    · show (getExistingArchive "web.archive.org" wb gh cache2 _ _ url 1).networkCalls + 1 = 3
      rw [hc1]
    · show ((2 ^ 0 : Nat) : Int) * 1000 ::
        (getExistingArchive "web.archive.org" wb gh cache2 _ _ url 1).sleeps = [1000, 2000]
      rw [hs1]
      norm_num
    · exact hr1
  have hgh0 : (getExistingArchive "ghostarchive.org" wb gh cache rl now url 0).networkCalls = 1 ∧
      (getExistingArchive "ghostarchive.org" wb gh cache rl now url 0).sleeps = [] := by
    rw [getExistingArchive.eq_def]
    simp only [reduceIte, hmiss, hgh]
    by_cases hRL : (classifyArchiveError eg "GhostArchive").type = RATE_LIMITED
    · rw [if_pos hRL]
      exact ⟨rfl, rfl⟩
    · rw [if_neg hRL]
      exact ⟨rfl, rfl⟩
  exact ⟨hwb0.1, hwb0.2.1, hwb0.2.2, hgh0.1, hgh0.2⟩

/-- Witness for C4: every Wayback attempt times out, the GhostArchive
attempt fails with a network error, both on an empty cache. -/
theorem wayback_retries_with_backoff_ghost_does_not_witness :
    (getExistingArchive "web.archive.org"
        (fun _ => .err { status := none, message := some "timeout", text := none })
        (fun _ => .err { status := none, message := some "network down", text := none })
        [] [] 0 "u" 0).networkCalls = 3 ∧
    (getExistingArchive "ghostarchive.org"
        (fun _ => .err { status := none, message := some "timeout", text := none })
        (fun _ => .err { status := none, message := some "network down", text := none })
        [] [] 0 "u" 0).networkCalls = 1 := by
  have h := wayback_retries_with_backoff_ghost_does_not
    (fun _ => .err { status := none, message := some "timeout", text := none })
    (fun _ => .err { status := none, message := some "network down", text := none })
    [] [] [] 0 "u"
    (fun _ => { status := none, message := some "timeout", text := none })
    { status := none, message := some "network down", text := none }
    (by decide) (fun _ => rfl)
    (fun _ => Or.inl (by decide :
      (classifyArchiveError { status := none, message := some "timeout", text := none }
        "Wayback Machine").type = NETWORK_ERROR)) rfl
  exact ⟨h.1, h.2.2.2.1⟩

/-- C6: when the provider produces zero candidates, getExistingArchive
returns found=false and stores that negative result; a second call for the
same URL within the TTL answers from the cache with the identical result,
no provider call, no rate-limiter wait, and an unchanged cache. -/
theorem zero_candidates_negative_cached_then_hit
    (site url : String) (wb : Nat → WaybackResp) (gh : Nat → GhostResp)
    (cache cache2 : List (String × CacheEntry)) (rl : List (String × Int))
    (now1 now2 : Int) (status : Int) (arr : List (List String))
    (hmiss : cacheGet cache url now1 = (none, cache2))
    (hcase : (site = "web.archive.org" ∧ wb 0 = .ok status (some arr) ∧
        waybackCandidates arr url = []) ∨
      (site = "ghostarchive.org" ∧ gh 0 = .ok []))
    (httl : now2 - (getExistingArchive site wb gh cache rl now1 url 0).endTime ≤ cacheTtl) :
    (getExistingArchive site wb gh cache rl now1 url 0).result =
      { foundArchive := false } ∧
    (getExistingArchive site wb gh
        (getExistingArchive site wb gh cache rl now1 url 0).cache
        (getExistingArchive site wb gh cache rl now1 url 0).rl now2 url 0).result =
      (getExistingArchive site wb gh cache rl now1 url 0).result ∧
    (getExistingArchive site wb gh
        (getExistingArchive site wb gh cache rl now1 url 0).cache
        (getExistingArchive site wb gh cache rl now1 url 0).rl now2 url 0).networkCalls = 0 ∧
    (getExistingArchive site wb gh
        (getExistingArchive site wb gh cache rl now1 url 0).cache
        (getExistingArchive site wb gh cache rl now1 url 0).rl now2 url 0).waits = 0 ∧
    (getExistingArchive site wb gh
        (getExistingArchive site wb gh cache rl now1 url 0).cache
        (getExistingArchive site wb gh cache rl now1 url 0).rl now2 url 0).cache =
      (getExistingArchive site wb gh cache rl now1 url 0).cache := by
  have hrun1 : getExistingArchive site wb gh cache rl now1 url 0 =
      negativeReturn cache2 (waitIfNeeded rl site now1).2 url
        (waitIfNeeded rl site now1).1 1 := by
    rcases hcase with ⟨hsite, hwb, hzero⟩ | ⟨hsite, hgh⟩
    · subst hsite
      rw [getExistingArchive.eq_def]
      simp only [reduceIte, hmiss, hwb]
      by_cases hcond : status = 200 ∧ arr.length > 1
      · rw [if_pos hcond, hzero]
        rfl
      · rw [if_neg hcond]
    · subst hsite
      rw [getExistingArchive.eq_def]
      simp only [reduceIte, hmiss, hgh]
      rfl
  rw [hrun1]
  have hget : cacheGet
      (negativeReturn cache2 (waitIfNeeded rl site now1).2 url
        (waitIfNeeded rl site now1).1 1).cache url now2 =
      (some { foundArchive := false },
        (negativeReturn cache2 (waitIfNeeded rl site now1).2 url
          (waitIfNeeded rl site now1).1 1).cache) := by
    rw [hrun1] at httl
    simp only [negativeReturn] at httl ⊢
    have hl : mapLookup
        (cacheSet cache2 url { foundArchive := false } (waitIfNeeded rl site now1).1) url =
        some { result := { foundArchive := false },
               timestamp := (waitIfNeeded rl site now1).1 } :=
      mapLookup_mapSet_self cache2 url _
    unfold cacheGet
    rw [hl]
    simp only []
    rw [if_neg (not_lt.mpr httl)]
  rw [getExistingArchive.eq_def]
  simp only [reduceIte, hget]
  refine ⟨?_, ?_, ?_, ?_, ?_⟩ <;> first | rfl | trivial

/-- Witness for C6: Wayback CDX returning only the header row, with the
second call 100 ms after the first completes. -/
theorem zero_candidates_negative_cached_then_hit_witness :
    (getExistingArchive "web.archive.org"
        (fun _ => .ok 200 (some [["urlkey", "timestamp", "original"]]))
        (fun _ => .ok []) [] [] 0 "u" 0).result = { foundArchive := false } ∧
    (getExistingArchive "web.archive.org"
        (fun _ => .ok 200 (some [["urlkey", "timestamp", "original"]]))
        (fun _ => .ok [])
        (getExistingArchive "web.archive.org"
            (fun _ => .ok 200 (some [["urlkey", "timestamp", "original"]]))
            (fun _ => .ok []) [] [] 0 "u" 0).cache
        (getExistingArchive "web.archive.org"
            (fun _ => .ok 200 (some [["urlkey", "timestamp", "original"]]))
            (fun _ => .ok []) [] [] 0 "u" 0).rl 1100 "u" 0).networkCalls = 0 := by
  have h := zero_candidates_negative_cached_then_hit "web.archive.org" "u"
    (fun _ => .ok 200 (some [["urlkey", "timestamp", "original"]]))
    (fun _ => .ok []) [] [] [] 0 1100 200 [["urlkey", "timestamp", "original"]]
    (by decide) (Or.inl ⟨rfl, rfl, by decide⟩)
    (by rw [getExistingArchive.eq_def]; decide)
  exact ⟨h.1, h.2.2.1⟩

/-! ## TitleCache lemmas (C8) -/

/-- A list of pairs has no key equal to k when every member's key differs. -/
theorem any_key_false {α : Type} (m : List (String × α)) (k : String)
    (h : ∀ p ∈ m, ¬ p.1 = k) : m.any (fun p => p.1 = k) = false := by
  rw [List.any_eq_false]
  intro p hp
  simp only [decide_eq_true_eq]
  exact h p hp

/-- Deleting a key removes every entry with that key. -/
theorem mapDelete_any_self_false {α : Type} (m : List (String × α)) (k : String) :
    (mapDelete m k).any (fun p => p.1 = k) = false := by
  apply any_key_false
  intro p hp
  have := (List.mem_filter.mp hp).2
  simpa using this

/-- Below capacity, inserting a fresh key appends it at the
most-recently-used end. -/
theorem titleSet_append (c : TitleCache) (url title : String) (now : Int)
    (hlen : c.entries.length < titleMaxSize)
    (hfresh : c.entries.any (fun p => p.1 = url) = false) :
    (titleSet c url title now).entries =
      c.entries ++ [(url, { title := title, timestamp := now })] := by
  unfold titleSet
  rw [if_neg (show ¬(c.entries.length ≥ titleMaxSize) from not_le.mpr hlen)]
  exact mapSet_of_fresh _ _ _ hfresh

/-- Folding fresh distinct inserts over a cache below capacity appends the
keys in order. -/
theorem titleSet_fold_append : ∀ (ks : List String) (c : TitleCache),
    c.entries.length + ks.length ≤ titleMaxSize →
    ks.Nodup →
    (∀ k ∈ ks, c.entries.any (fun p => p.1 = k) = false) →
    (ks.foldl (fun c k => titleSet c k "t" 0) c).entries =
      c.entries ++ ks.map (fun k => (k, { title := "t", timestamp := 0 }))
  | [], c, _, _, _ => by simp
  | k :: ks, c, hlen, hnodup, hfresh => by
    simp only [List.foldl_cons]
    have hlt : c.entries.length < titleMaxSize := by
      simp only [List.length_cons] at hlen
      omega
    have hstep := titleSet_append c k "t" 0 hlt (hfresh k (by simp))
    have hknotin : k ∉ ks := (List.nodup_cons.mp hnodup).1
    have hrec := titleSet_fold_append ks (titleSet c k "t" 0)
      (by
        rw [hstep]
        simp at hlen ⊢
        omega)
      (List.nodup_cons.mp hnodup).2
      (by
        intro k' hk'
        rw [hstep, List.any_append]
        have h1 := hfresh k' (List.mem_cons_of_mem _ hk')
        have h2 : ¬ k = k' := fun he => hknotin (he ▸ hk')
        simp [h1, h2])
    rw [hrec, hstep]
    simp

/-- Keys of the C8 counterexample trace: the empty string first, then 499
distinct nonempty keys. -/
def c8Keys : List String :=
  "" :: (List.range 499).map (fun i => String.mk (List.replicate (i + 1) 'k'))

/-- The cache state reached by inserting those 500 keys (the empty string
first, so it sits at the least-recently-used position) into an empty
TitleCache. -/
def c8State : TitleCache :=
  c8Keys.foldl (fun c k => titleSet c k "t" 0) ⟨[]⟩

theorem c8Keys_nodup : c8Keys.Nodup := by
  unfold c8Keys
  rw [List.nodup_cons]
  constructor
  · intro hmem
    obtain ⟨i, _, hi⟩ := List.mem_map.mp hmem
    have := congrArg String.data hi
    simp [List.replicate_succ] at this
  · refine List.Nodup.map ?_ (List.nodup_range 499)
    intro i j hij
    have := congrArg String.data hij
    have := congrArg List.length this
    simpa using this

theorem c8State_entries : c8State.entries =
    c8Keys.map (fun k => (k, { title := "t", timestamp := 0 })) := by
  unfold c8State
  have h := titleSet_fold_append c8Keys ⟨[]⟩
    (by simp [c8Keys, titleMaxSize])
    c8Keys_nodup
    (by intro k _; simp)
  simpa using h

/-- C8 counterexample: after 500 inserts whose first key is the empty
string, the cache is full with the empty key at the least-recently-used
slot; one more insert of a fresh key skips the eviction (the JS guard
if (firstKey) treats the empty-string key as absent) and the cache grows
to 501 entries, exceeding its configured maximum of 500. -/
theorem titleCache_overflow_cex :
    c8State.entries.length = titleMaxSize ∧
    (titleSet c8State "x" "t" 0).entries.length = titleMaxSize + 1 := by
  have hE := c8State_entries
  have hlen : c8State.entries.length = titleMaxSize := by
    rw [hE]
    simp [c8Keys, titleMaxSize]
  refine ⟨hlen, ?_⟩
  unfold titleSet
  rw [if_pos (le_of_eq hlen.symm)]
  have hhead : c8State.entries.head? =
      some ("", { title := "t", timestamp := 0 }) := by
    rw [hE]
    simp [c8Keys]
  rw [hhead]
  simp only []
  simp only [reduceIte]
  have hfresh : c8State.entries.any (fun p => p.1 = "x") = false := by
    rw [hE]
    apply any_key_false
    intro p hp
    obtain ⟨k, hk, hpk⟩ := List.mem_map.mp hp
    subst hpk
    simp only []
    rcases List.mem_cons.mp hk with h | h
    · subst h; decide
    · obtain ⟨i, _, hi⟩ := List.mem_map.mp h
      subst hi
      intro hcontra
      have := congrArg String.data hcontra
      simp [List.replicate_succ] at this
  rw [mapSet_of_fresh _ _ _ hfresh]
  rw [List.length_append, hlen, List.length_singleton]

/-- C8 amended: provided the empty string is never used as a key, the
TitleCache respects its bound and its LRU discipline: (1) set on a cache of
nonempty keys within the bound stays within the bound (500 entries); (2)
get never grows the cache; (3) inserting a fresh key into a full cache
whose first key is nonempty evicts exactly that first — least recently
used — entry and appends the new key at the most-recently-used end; (4) a
successful unexpired get returns the stored title and moves the accessed
entry to the most-recently-used end.  (Without the nonempty-key proviso
the bound fails, see the counterexample.) -/
theorem titleCache_lru_bound_and_eviction :
    (∀ (c : TitleCache) (url title : String) (now : Int),
      (∀ p ∈ c.entries, ¬ p.1 = "") →
      c.entries.length ≤ titleMaxSize →
      (titleSet c url title now).entries.length ≤ titleMaxSize) ∧
    (∀ (c : TitleCache) (url : String) (now : Int),
      (titleGet c url now).2.entries.length ≤ c.entries.length) ∧
    (∀ (c : TitleCache) (p : String × TitleEntry) (tl : List (String × TitleEntry))
       (url title : String) (now : Int),
      c.entries = p :: tl →
      ¬ p.1 = "" →
      tl.any (fun q => q.1 = p.1) = false →
      c.entries.any (fun q => q.1 = url) = false →
      c.entries.length = titleMaxSize →
      (titleSet c url title now).entries =
        tl ++ [(url, { title := title, timestamp := now })]) ∧
    (∀ (c : TitleCache) (url : String) (now : Int) (entry : TitleEntry),
      mapLookup c.entries url = some entry →
      ¬ (now - entry.timestamp > titleTtl) →
      (titleGet c url now).1 = some entry.title ∧
      (titleGet c url now).2.entries = mapDelete c.entries url ++ [(url, entry)]) := by
  refine ⟨?_, ?_, ?_, ?_⟩
  · intro c url title now hkeys hle
    unfold titleSet
    by_cases hge : c.entries.length ≥ titleMaxSize
    · rw [if_pos hge]
      cases hE : c.entries with
      | nil =>
        rw [hE] at hge
        simp at hge
        have h0 : (0 : Nat) < titleMaxSize := by decide
        omega
      | cons p tl =>
        have hp : ¬ p.1 = "" := hkeys p (by rw [hE]; exact List.mem_cons_self _ _)
        simp only [List.head?_cons]
        rw [if_neg hp]
        have hdel : (mapDelete (p :: tl) p.1).length ≤ tl.length := by
          unfold mapDelete
          rw [List.filter_cons]
          rw [if_neg (by simp)]
          exact List.length_filter_le _ tl
        have hset := mapSet_length_le (mapDelete (p :: tl) p.1) url
          ({ title := title, timestamp := now } : TitleEntry)
        rw [hE] at hle
        simp only [List.length_cons] at hle
        omega
    · rw [if_neg hge]
      simp only []
      have := mapSet_length_le c.entries url ({ title := title, timestamp := now } : TitleEntry)
      omega
  · intro c url now
    unfold titleGet
    cases hL : mapLookup c.entries url with
    | none => simp
    | some entry =>
      simp only []
      by_cases hexp : now - entry.timestamp > titleTtl
      · rw [if_pos hexp]
        simp only []
        exact mapDelete_length_le c.entries url
      · rw [if_neg hexp]
        simp only []
        have h1 := mapDelete_length_lt c.entries url entry hL
        have h2 := mapSet_length_le (mapDelete c.entries url) url entry
        omega
  · intro c p tl url title now hE hp hfreshtl hfreshurl hlen
    unfold titleSet
    rw [if_pos (le_of_eq hlen.symm)]
    rw [hE]
    simp only [List.head?_cons]
    rw [if_neg hp]
    rw [mapDelete_cons_self_of_fresh p tl hfreshtl]
    apply mapSet_of_fresh
    rw [hE, List.any_cons] at hfreshurl
    simp only [Bool.or_eq_false_iff] at hfreshurl
    exact hfreshurl.2
  · intro c url now entry hL hexp
    unfold titleGet
    rw [hL]
    simp only []
    rw [if_neg hexp]
    refine ⟨rfl, ?_⟩
    simp only []
    exact mapSet_of_fresh _ _ _ (mapDelete_any_self_false c.entries url)

/-- Tail of the C8 witness state: 499 distinct nonempty keys. -/
def witTail : List (String × TitleEntry) :=
  (List.range 499).map
    (fun i => (String.mk (List.replicate (i + 2) 'k'), { title := "t", timestamp := 0 }))

/-- A full 500-entry witness state with nonempty distinct keys. -/
def witFull : TitleCache := ⟨("k", { title := "t", timestamp := 0 }) :: witTail⟩

/-- Witness for C8 at concrete states: the bound is kept on an empty cache;
on the full witness state, inserting the fresh key u evicts exactly the
first entry; and a fresh unexpired get of a one-entry cache returns the
title and keeps the entry. -/
theorem titleCache_lru_bound_and_eviction_witness :
    (titleSet ⟨[]⟩ "a" "t" 0).entries.length ≤ titleMaxSize ∧
    (titleSet witFull "u" "t" 7).entries =
      witTail ++ [("u", { title := "t", timestamp := 7 })] ∧
    (titleGet ⟨[("a", { title := "T", timestamp := 5 })]⟩ "a" 10).1 = some "T" := by
  have hTailFresh : ∀ (s : String), s.length ≤ 1 →
      witTail.any (fun q => q.1 = s) = false := by
    intro s hs
    apply any_key_false
    intro p hp
    obtain ⟨i, _, hi⟩ := List.mem_map.mp hp
    subst hi
    simp only []
    intro hcontra
    have h1 := congrArg String.data hcontra
    have h2 := congrArg List.length h1
    simp at h2
    omega
  have h1 := titleCache_lru_bound_and_eviction.1 ⟨[]⟩ "a" "t" 0
    (by intro p hp; simp at hp) (by decide)
  have h3 := titleCache_lru_bound_and_eviction.2.2.1 witFull
    ("k", { title := "t", timestamp := 0 }) witTail "u" "t" 7
    rfl (by decide)
    (hTailFresh "k" (by decide))
    (by
      rw [show witFull.entries = ("k", { title := "t", timestamp := 0 }) :: witTail from rfl,
        List.any_cons]
      have := hTailFresh "u" (by decide)
      simp only [this, Bool.or_false]
      simp)
    (by simp [witFull, witTail, titleMaxSize])
  have h4 := titleCache_lru_bound_and_eviction.2.2.2
    ⟨[("a", { title := "T", timestamp := 5 })]⟩ "a" 10 { title := "T", timestamp := 5 }
    (by decide) (by decide)
  exact ⟨h1, h3, h4.1⟩

end LinkArchiver
